import Mathlib

/-!
# Verification of the simulator-core network solving engine

Shallow embedding, in Lean 4, of the network construction and solving layer of
the simulator-core repository: the `Network` container (`network.py`), the
boundary equation contract (`Boundary.py`, `base_node_item.py`), the production
cluster setpoint logic (`production_cluster.py`), the timestep loop
(`networksimulation.py`), and the pipe friction / advective heat-transport
physics described by the specification and pinned by
`test_solver_pipe.py`.

Python `uuid.UUID` identifiers are modelled as natural numbers, Python floats
as rationals, Python (insertion-ordered) dicts as association lists, and
raised exceptions as explicit error values.
-/

namespace SimCore

/-! ## Association-list dictionaries

Python `dict` semantics: `d[k] = v` overwrites in place when the key is
present and appends otherwise; lookup returns the unique binding. -/

abbrev Dict (α : Type) := List (Nat × α)

def findVal {α : Type} (k : Nat) : Dict α → Option α
  | [] => none
  | (k', v) :: rest => if k' = k then some v else findVal k rest

def hasKey {α : Type} (k : Nat) (d : Dict α) : Bool :=
  (findVal k d).isSome

def setVal {α : Type} (k : Nat) (v : α) : Dict α → Dict α
  | [] => [(k, v)]
  | (k', v') :: rest => if k' = k then (k', v) :: rest else (k', v') :: setVal k v rest

def updVal {α : Type} (k : Nat) (f : α → α) : Dict α → Dict α
  | [] => []
  | (k', v') :: rest => if k' = k then (k', f v') :: rest else (k', v') :: updVal k f rest

def mapVals {α : Type} (f : α → α) (d : Dict α) : Dict α :=
  d.map (fun p => (p.1, f p.2))

theorem findVal_setVal_self {α : Type} (k : Nat) (v : α) (d : Dict α) :
    findVal k (setVal k v d) = some v := by
  induction d with
  | nil => simp [setVal, findVal]
  | cons hd tl ih =>
      obtain ⟨k', v'⟩ := hd
      by_cases hk : k' = k
      · simp [setVal, hk, findVal]
      · simp [setVal, hk, findVal, ih]

theorem findVal_setVal_ne {α : Type} {k k' : Nat} (h : k' ≠ k) (v : α) (d : Dict α) :
    findVal k (setVal k' v d) = findVal k d := by
  induction d with
  | nil => simp [setVal, findVal, h]
  | cons hd tl ih =>
      obtain ⟨k'', v''⟩ := hd
      by_cases hk : k'' = k'
      · subst hk
        simp [setVal, findVal, h]
      · by_cases hk2 : k'' = k
        · simp [setVal, hk, findVal, hk2, Ne.symm h]
        · simp [setVal, hk, findVal, hk2, ih]

theorem findVal_updVal_self {α : Type} (k : Nat) (f : α → α) (d : Dict α) :
    findVal k (updVal k f d) = (findVal k d).map f := by
  induction d with
  | nil => simp [updVal, findVal]
  | cons hd tl ih =>
      obtain ⟨k', v'⟩ := hd
      by_cases hk : k' = k
      · simp [updVal, hk, findVal]
      · simp [updVal, hk, findVal, ih]

theorem findVal_updVal_ne {α : Type} {k k' : Nat} (h : k' ≠ k) (f : α → α) (d : Dict α) :
    findVal k (updVal k' f d) = findVal k d := by
  induction d with
  | nil => simp [updVal, findVal]
  | cons hd tl ih =>
      obtain ⟨k'', v''⟩ := hd
      by_cases hk : k'' = k'
      · subst hk
        simp [updVal, findVal, h]
      · by_cases hk2 : k'' = k
        · simp [updVal, hk, findVal, hk2, Ne.symm h]
        · simp [updVal, hk, findVal, hk2, ih]

theorem length_updVal {α : Type} (k : Nat) (f : α → α) (d : Dict α) :
    (updVal k f d).length = d.length := by
  induction d with
  | nil => simp [updVal]
  | cons hd tl ih =>
      obtain ⟨k', v'⟩ := hd
      by_cases hk : k' = k <;> simp [updVal, hk, ih]

theorem keys_updVal {α : Type} (k : Nat) (f : α → α) (d : Dict α) :
    (updVal k f d).map Prod.fst = d.map Prod.fst := by
  induction d with
  | nil => simp [updVal]
  | cons hd tl ih =>
      obtain ⟨k', v'⟩ := hd
      by_cases hk : k' = k <;> simp [updVal, hk, ih]

theorem findVal_of_not_hasKey {α : Type} {k : Nat} {d : Dict α}
    (h : hasKey k d = false) : findVal k d = none := by
  unfold hasKey at h
  cases hfind : findVal k d with
  | none => rfl
  | some v => rw [hfind] at h; simp at h

theorem length_setVal_of_findVal_none {α : Type} {k : Nat} {d : Dict α}
    (h : findVal k d = none) (v : α) : (setVal k v d).length = d.length + 1 := by
  induction d with
  | nil => simp [setVal]
  | cons hd tl ih =>
      obtain ⟨k', v'⟩ := hd
      by_cases hk : k' = k
      · subst hk
        simp [findVal] at h
      · simp [findVal, hk] at h
        simp [setVal, hk, ih h]

theorem findVal_mem {α : Type} {k : Nat} {d : Dict α} {v : α}
    (h : findVal k d = some v) : (k, v) ∈ d := by
  induction d with
  | nil => simp [findVal] at h
  | cons hd tl ih =>
      obtain ⟨k', v'⟩ := hd
      by_cases hk : k' = k
      · subst hk
        simp [findVal] at h
        simp [h]
      · simp [findVal, hk] at h
        exact List.mem_cons_of_mem _ (ih h)

theorem findVal_mapVals {α : Type} (k : Nat) (f : α → α) (d : Dict α) :
    findVal k (mapVals f d) = (findVal k d).map f := by
  induction d with
  | nil => simp [mapVals, findVal]
  | cons hd tl ih =>
      obtain ⟨k', v'⟩ := hd
      by_cases hk : k' = k
      · simp [mapVals, findVal, hk]
      · simpa [mapVals, findVal, hk] using ih

/-! ## The solver network data model

`network.py` builds networks out of the asset variants registered in
`str_to_class_dict` and of `Node` junctions.  The variant classes
(`base_asset.py`, `node.py`, `fall_type.py`, `production_asset.py`,
`solver_pipe.py`) are not under `src/`; their state relevant here
(connection-point wiring, `matrix_index`, `number_of_unknowns`, `prev_sol`,
and the node-side `connected_assets` list) is modelled from the spec (§3) and
from `base_node_item.py` / the unit tests. -/

inductive AssetKind
  | boundary
  | asset
  | fall
  | production
  | pipe
deriving DecidableEq, Repr

structure SolverAsset where
  name : Nat
  kind : AssetKind
  number_of_unknowns : Nat
  number_con_points : Nat
  /-- connection point ↦ name of the node it is wired to -/
  connectedNodes : Dict Nat
  matrix_index : Nat
  prev_sol : List ℚ
deriving DecidableEq, Repr

structure SolverNode where
  name : Nat
  /-- (asset name, connection point) pairs wired into this node -/
  connected_assets : List (Nat × Nat)
  number_of_unknowns : Nat
  matrix_index : Nat
  prev_sol : List ℚ
deriving DecidableEq, Repr

structure Network where
  assets : Dict SolverAsset
  nodes : Dict SolverNode
deriving DecidableEq, Repr

/-- Raised Python exceptions, one constructor per raise site kind in the
embedded code (`ValueError`, `NotImplementedError`); `keyError` marks
lookups the Python code performs without a guard. -/
inductive NetworkError
  | valueError (msg : String)
  | notImplementedError (msg : String)
  | keyError
deriving DecidableEq, Repr

/-- The `str_to_class_dict` registry of `network.py`. -/
def str_to_class_dict : List (String × AssetKind) :=
  [("Boundary", .boundary), ("Asset", .asset), ("Fall", .fall),
   ("Production", .production), ("Pipe", .pipe)]

def lookupKind (s : String) : Option AssetKind :=
  str_to_class_dict.lookup s

/-- Modelled from the spec: the constructors registered in
`str_to_class_dict` live in files absent from `src/`.  Per spec §3 an asset
has one connection point if it is a boundary and two otherwise, three
unknowns (discharge, pressure, internal energy) per connection point, no
wiring yet, and a zero `prev_sol` (as `base_node_item.py` does for nodes). -/
def mkSolverAsset (kind : AssetKind) (name : Nat) : SolverAsset :=
  let ncp : Nat := match kind with
    | .boundary => 1
    | _ => 2
  { name := name
    kind := kind
    number_of_unknowns := 3 * ncp
    number_con_points := ncp
    connectedNodes := []
    matrix_index := 0
    prev_sol := List.replicate (3 * ncp) 0 }

/-- Modelled from the spec: `node.py` is absent from `src/`; a fresh `Node`
has no connected assets and, per `base_node_item.py`, a zero `prev_sol`. -/
def mkSolverNode (name : Nat) : SolverNode :=
  { name := name
    connected_assets := []
    number_of_unknowns := 3
    matrix_index := 0
    prev_sol := List.replicate 3 0 }

/-- Modelled from the spec: `BaseAsset.is_connected` (base class absent from
`src/`) reports whether the given connection point is wired to a node. -/
def SolverAsset.is_connected (a : SolverAsset) (cp : Nat) : Bool :=
  hasKey cp a.connectedNodes

def SolverAsset.connect_node (a : SolverAsset) (cp : Nat) (nodeName : Nat) : SolverAsset :=
  { a with connectedNodes := setVal cp nodeName a.connectedNodes }

def SolverAsset.get_connected_node (a : SolverAsset) (cp : Nat) : Option Nat :=
  findVal cp a.connectedNodes

/-- Modelled from the spec: `Node.is_connected` is true iff at least one
asset is wired into the node. -/
def SolverNode.is_connected (n : SolverNode) : Bool :=
  !n.connected_assets.isEmpty

def SolverNode.connect_asset (n : SolverNode) (assetName cp : Nat) : SolverNode :=
  { n with connected_assets := n.connected_assets ++ [(assetName, cp)] }

/-- Modelled from the spec: `BaseAsset.is_all_connected` is true iff every
connection point of the asset is wired. -/
def SolverAsset.is_all_connected (a : SolverAsset) : Bool :=
  (List.range a.number_con_points).all (fun cp => a.is_connected cp)

/-! ## `Network` operations (`network.py`) -/

/-- `Network.add_asset`.  `uuid.uuid4()` is modelled by the extra `freshId`
argument supplying the generated identifier. -/
def Network.add_asset (net : Network) (asset_type : String) (name : Option Nat)
    (freshId : Nat) : Except NetworkError (Nat × Network) :=
  match lookupKind asset_type with
  | none => .error (.valueError (asset_type ++ " not recognized"))
  | some kind =>
      let n := name.getD freshId
      .ok (n, { net with assets := setVal n (mkSolverAsset kind n) net.assets })

/-- `Network.add_existing_asset`. -/
def Network.add_existing_asset (net : Network) (asset : SolverAsset) :
    Except NetworkError (Nat × Network) :=
  if hasKey asset.name net.assets then
    .error (.valueError (toString asset.name ++ " already exists in network"))
  else
    .ok (asset.name, { net with assets := setVal asset.name asset net.assets })

def Network.exists_asset (net : Network) (asset_id : Nat) : Bool :=
  hasKey asset_id net.assets

def Network.exists_node (net : Network) (asset_id : Nat) : Bool :=
  hasKey asset_id net.nodes

/-- `Network.connect_assets`, mirroring the `if`/`elif` chain of
`network.py` lines 76–128 branch for branch (including the unreachable
fourth branch, whose guard repeats the first branch's).  `uuid.uuid4()` is
modelled by `freshId`. -/
def Network.connect_assets (net : Network) (asset1 cp1 asset2 cp2 freshId : Nat) :
    Except NetworkError (Nat × Network) :=
  match findVal asset1 net.assets, findVal asset2 net.assets with
  | none, _ => .error (.valueError (toString asset1 ++ " does not exists in network"))
  | some _, none => .error (.valueError (toString asset2 ++ " does not exists in network"))
  | some x1, some x2 =>
      if !x1.is_connected cp1 && !x2.is_connected cp2 then
        -- both asset connect points not connected
        let nodes0 := setVal freshId (mkSolverNode freshId) net.nodes
        let assets1 := updVal asset1 (fun a => a.connect_node cp1 freshId) net.assets
        let assets2 := updVal asset2 (fun a => a.connect_node cp2 freshId) assets1
        let nodes1 := updVal freshId (fun n => n.connect_asset asset1 cp1) nodes0
        let nodes2 := updVal freshId (fun n => n.connect_asset asset2 cp2) nodes1
        .ok (freshId, { assets := assets2, nodes := nodes2 })
      else if x1.is_connected cp1 && !x2.is_connected cp2 then
        -- asset 1 connected asset 2 not
        match x1.get_connected_node cp1 with
        | none => .error .keyError
        | some nid =>
            let assets1 := updVal asset2 (fun a => a.connect_node cp2 nid) net.assets
            let nodes1 := updVal nid (fun n => n.connect_asset asset2 cp2) net.nodes
            .ok (nid, { assets := assets1, nodes := nodes1 })
      else if !x1.is_connected cp1 && x2.is_connected cp2 then
        -- asset 2 connected asset 1 not
        match x2.get_connected_node cp2 with
        | none => .error .keyError
        | some nid =>
            let assets1 := updVal asset1 (fun a => a.connect_node cp1 nid) net.assets
            let nodes1 := updVal nid (fun n => n.connect_asset asset1 cp1) net.nodes
            .ok (nid, { assets := assets1, nodes := nodes1 })
      else if !x1.is_connected cp1 && !x2.is_connected cp2 then
        .error (.notImplementedError "Assets already connected to assets")
      else
        .error (.notImplementedError "Something has gone wrong assets already connected to node")

def Network.check_connectivity_assets (net : Network) : Bool :=
  (net.assets.map (fun p => p.2.is_all_connected)).all id

def Network.check_connectivity_nodes (net : Network) : Bool :=
  (net.nodes.map (fun p => p.2.is_connected)).all id

def Network.check_connectivity (net : Network) : Bool :=
  net.check_connectivity_assets && net.check_connectivity_nodes

/-- Python's slice `solution[index : index + nou]` on a list. -/
def sliceList (x : List ℚ) (index nou : Nat) : List ℚ :=
  (x.drop index).take nou

/-- `Network.set_result_asset`: copies each asset's slice of the solution
vector into its `prev_sol`. -/
def Network.set_result_asset (net : Network) (solution : List ℚ) : Network :=
  { net with
    assets := mapVals
      (fun a => { a with prev_sol := sliceList solution a.matrix_index a.number_of_unknowns })
      net.assets }

/-- `Network.set_result_node`: same for the nodes. -/
def Network.set_result_node (net : Network) (solution : List ℚ) : Network :=
  { net with
    nodes := mapVals
      (fun n => { n with prev_sol := sliceList solution n.matrix_index n.number_of_unknowns })
      net.nodes }

/-- The node id (if any) an asset's connection point is wired to. -/
def Network.connectedNodeOf (net : Network) (assetId cp : Nat) : Option Nat :=
  (findVal assetId net.assets).bind (fun a => findVal cp a.connectedNodes)

/-- C5: `check_connectivity()` returns true iff every asset reports
`is_all_connected` and every node reports `is_connected`; equivalently, iff
every connection point of every asset is wired to a node and every node has a
nonempty connected-asset list, so it is false on any partially-built graph in
which some connection point or node lacks a peer. -/
theorem check_connectivity_iff (net : Network) :
    (net.check_connectivity = true ↔
      ((∀ p ∈ net.assets, (p.2 : SolverAsset).is_all_connected = true) ∧
       (∀ p ∈ net.nodes, (p.2 : SolverNode).is_connected = true))) ∧
    (net.check_connectivity = true ↔
      ((∀ p ∈ net.assets, ∀ cp < (p.2 : SolverAsset).number_con_points,
          (p.2 : SolverAsset).is_connected cp = true) ∧
       (∀ p ∈ net.nodes, (p.2 : SolverNode).connected_assets ≠ []))) := by
  constructor
  · simp [Network.check_connectivity, Network.check_connectivity_assets,
      Network.check_connectivity_nodes, List.all_map, List.all_eq_true, Function.comp]
  · simp [Network.check_connectivity, Network.check_connectivity_assets,
      Network.check_connectivity_nodes, List.all_map, List.all_eq_true, Function.comp,
      SolverAsset.is_all_connected, SolverNode.is_connected, List.isEmpty_iff]

/-- C6: after `set_result_asset` followed by `set_result_node`, every asset's
and every node's `prev_sol` equals the slice
`x[matrix_index : matrix_index + number_of_unknowns]` taken at its own
`matrix_index`, and no other field of any asset or node changes (the record
update touches `prev_sol` only). -/
theorem set_result_scatters_solution (net : Network) (x : List ℚ) :
    (∀ aid a, findVal aid net.assets = some a →
        findVal aid ((net.set_result_asset x).set_result_node x).assets =
          some { a with prev_sol := sliceList x a.matrix_index a.number_of_unknowns }) ∧
    (∀ nid n, findVal nid net.nodes = some n →
        findVal nid ((net.set_result_asset x).set_result_node x).nodes =
          some { n with prev_sol := sliceList x n.matrix_index n.number_of_unknowns }) := by
  constructor
  · intro aid a h
    have : ((net.set_result_asset x).set_result_node x).assets =
        mapVals (fun a =>
          { a with prev_sol := sliceList x a.matrix_index a.number_of_unknowns })
          net.assets := rfl
    rw [this, findVal_mapVals, h]
    rfl
  · intro nid n h
    have : ((net.set_result_asset x).set_result_node x).nodes =
        mapVals (fun n =>
          { n with prev_sol := sliceList x n.matrix_index n.number_of_unknowns })
          net.nodes := rfl
    rw [this, findVal_mapVals, h]
    rfl

/-- Witness for C6 at a concrete one-asset, one-node network and solution
vector. -/
theorem set_result_scatters_solution_witness :
    (findVal 1 (Network.mk [(1, mkSolverAsset .pipe 1)] [(7, mkSolverNode 7)]).assets =
        some (mkSolverAsset .pipe 1)) ∧
    (findVal 1 (((Network.mk [(1, mkSolverAsset .pipe 1)] [(7, mkSolverNode 7)]).set_result_asset
          [1, 2, 3, 4, 5, 6, 7, 8]).set_result_node [1, 2, 3, 4, 5, 6, 7, 8]).assets =
        some { mkSolverAsset .pipe 1 with prev_sol := [1, 2, 3, 4, 5, 6] }) := by
  constructor
  · rfl
  · have h := (set_result_scatters_solution
      (Network.mk [(1, mkSolverAsset .pipe 1)] [(7, mkSolverNode 7)])
      [1, 2, 3, 4, 5, 6, 7, 8]).1 1 (mkSolverAsset .pipe 1) rfl
    simpa using h

/-- C7: `add_asset` fails (with the `ValueError` the spec labels
`UnknownKindError`) exactly when the kind string is not registered in
`str_to_class_dict`, and on a registered kind with no name given it stores a
fresh asset under the generated id and returns that id; `add_existing_asset`
fails (with the `ValueError` the spec labels `DuplicateEntityError`) exactly
when the asset's name is already present, and otherwise stores the asset
under its name and returns that name.  A failing call returns only the
error, leaving the network unchanged. -/
theorem add_asset_spec :
    (∀ (net : Network) (t : String) (name : Option Nat) (fresh : Nat),
        lookupKind t = none →
        net.add_asset t name fresh = .error (.valueError (t ++ " not recognized"))) ∧
    (∀ (net : Network) (t : String) (fresh : Nat) (kind : AssetKind),
        lookupKind t = some kind →
        ∃ net', net.add_asset t none fresh = .ok (fresh, net') ∧
          findVal fresh net'.assets = some (mkSolverAsset kind fresh) ∧
          net'.nodes = net.nodes) ∧
    (∀ (net : Network) (asset : SolverAsset),
        hasKey asset.name net.assets = true →
        net.add_existing_asset asset =
          .error (.valueError (toString asset.name ++ " already exists in network"))) ∧
    (∀ (net : Network) (asset : SolverAsset),
        hasKey asset.name net.assets = false →
        ∃ net', net.add_existing_asset asset = .ok (asset.name, net') ∧
          findVal asset.name net'.assets = some asset ∧
          net'.nodes = net.nodes) := by
  refine ⟨?_, ?_, ?_, ?_⟩
  · intro net t name fresh h
    simp [Network.add_asset, h]
  · intro net t fresh kind h
    refine ⟨{ net with assets := setVal fresh (mkSolverAsset kind fresh) net.assets },
      by simp [Network.add_asset, h], ?_, rfl⟩
    exact findVal_setVal_self fresh (mkSolverAsset kind fresh) net.assets
  · intro net asset h
    simp [Network.add_existing_asset, h]
  · intro net asset h
    refine ⟨{ net with assets := setVal asset.name asset net.assets },
      by simp [Network.add_existing_asset, h], ?_, rfl⟩
    exact findVal_setVal_self asset.name asset net.assets

/-- Witness for C7: an unregistered kind is rejected, a registered kind is
stored under the generated id, a duplicate name is rejected, and a fresh
name is stored. -/
theorem add_asset_spec_witness :
    (lookupKind "Pluto" = none ∧
      (Network.mk [] []).add_asset "Pluto" none 4 =
        .error (.valueError "Pluto not recognized")) ∧
    (lookupKind "Pipe" = some .pipe ∧
      ∃ net', (Network.mk [] []).add_asset "Pipe" none 4 = .ok (4, net') ∧
        findVal 4 net'.assets = some (mkSolverAsset .pipe 4) ∧
        net'.nodes = ([] : Dict SolverNode)) ∧
    (hasKey 4 [(4, mkSolverAsset .pipe 4)] = true ∧
      (Network.mk [(4, mkSolverAsset .pipe 4)] []).add_existing_asset (mkSolverAsset .fall 4) =
        .error (.valueError "4 already exists in network")) ∧
    (hasKey 5 [(4, mkSolverAsset .pipe 4)] = false ∧
      ∃ net', (Network.mk [(4, mkSolverAsset .pipe 4)] []).add_existing_asset
          (mkSolverAsset .fall 5) = .ok (5, net') ∧
        findVal 5 net'.assets = some (mkSolverAsset .fall 5) ∧
        net'.nodes = ([] : Dict SolverNode)) := by
  refine ⟨⟨rfl, ?_⟩, ⟨rfl, ?_⟩, ⟨rfl, ?_⟩, ⟨rfl, ?_⟩⟩
  · exact add_asset_spec.1 (Network.mk [] []) "Pluto" none 4 rfl
  · exact add_asset_spec.2.1 (Network.mk [] []) "Pipe" 4 .pipe rfl
  · exact add_asset_spec.2.2.1 (Network.mk [(4, mkSolverAsset .pipe 4)] [])
      (mkSolverAsset .fall 4) rfl
  · exact add_asset_spec.2.2.2 (Network.mk [(4, mkSolverAsset .pipe 4)] [])
      (mkSolverAsset .fall 5) rfl

/-- C1: `connect_assets` on two existing assets behaves by cases on the
connection state of the two points: neither connected — exactly one new node
is created, both points are wired to it and its id is returned; exactly one
connected — that point's node is reused, the other point is wired to it and
its id is returned, with no node created; both already connected (in
particular to two different nodes) — the call fails with the raised error
(`NotImplementedError` in the code, the condition the spec labels
`AlreadyConnectedError`) and returns no network, so nodes are never silently
merged. -/
theorem connect_assets_cases
    (net : Network) (a1 cp1 a2 cp2 fresh : Nat) (x1 x2 : SolverAsset)
    (h1 : findVal a1 net.assets = some x1)
    (h2 : findVal a2 net.assets = some x2) :
    (x1.is_connected cp1 = false → x2.is_connected cp2 = false →
      hasKey fresh net.nodes = false →
      ∃ net', net.connect_assets a1 cp1 a2 cp2 fresh = .ok (fresh, net') ∧
        net'.nodes.length = net.nodes.length + 1 ∧
        net'.connectedNodeOf a1 cp1 = some fresh ∧
        net'.connectedNodeOf a2 cp2 = some fresh ∧
        findVal fresh net'.nodes =
          some { mkSolverNode fresh with connected_assets := [(a1, cp1), (a2, cp2)] }) ∧
    (∀ nid, x2.is_connected cp2 = false →
      x1.get_connected_node cp1 = some nid →
      ∃ net', net.connect_assets a1 cp1 a2 cp2 fresh = .ok (nid, net') ∧
        net'.nodes.map Prod.fst = net.nodes.map Prod.fst ∧
        net'.connectedNodeOf a1 cp1 = some nid ∧
        net'.connectedNodeOf a2 cp2 = some nid) ∧
    (∀ nid, x1.is_connected cp1 = false →
      x2.get_connected_node cp2 = some nid →
      ∃ net', net.connect_assets a1 cp1 a2 cp2 fresh = .ok (nid, net') ∧
        net'.nodes.map Prod.fst = net.nodes.map Prod.fst ∧
        net'.connectedNodeOf a1 cp1 = some nid ∧
        net'.connectedNodeOf a2 cp2 = some nid) ∧
    (∀ nid1 nid2, x1.get_connected_node cp1 = some nid1 →
      x2.get_connected_node cp2 = some nid2 → nid1 ≠ nid2 →
      net.connect_assets a1 cp1 a2 cp2 fresh =
        .error (.notImplementedError
          "Something has gone wrong assets already connected to node")) := by
  refine ⟨?_, ?_, ?_, ?_⟩
  · -- neither point connected
    intro hc1 hc2 hfresh
    refine ⟨Network.mk
      (updVal a2 (fun a => a.connect_node cp2 fresh)
        (updVal a1 (fun a => a.connect_node cp1 fresh) net.assets))
      (updVal fresh (fun n => n.connect_asset a2 cp2)
        (updVal fresh (fun n => n.connect_asset a1 cp1)
          (setVal fresh (mkSolverNode fresh) net.nodes))), ?eq, ?len, ?w1, ?w2, ?node⟩
    case eq => simp [Network.connect_assets, h1, h2, hc1, hc2]
    case len =>
      simp only [length_updVal]
      exact length_setVal_of_findVal_none (findVal_of_not_hasKey hfresh) _
    case w1 =>
      by_cases hA : a2 = a1
      · subst hA
        rw [h1] at h2
        obtain rfl : x1 = x2 := by injection h2
        simp only [Network.connectedNodeOf, findVal_updVal_self, h1, Option.map_map,
          Option.bind_some, Option.map_some, Option.some_bind]
        by_cases hcp : cp2 = cp1
        · subst hcp
          simp [SolverAsset.connect_node, findVal_setVal_self]
        · simp [SolverAsset.connect_node, findVal_setVal_ne hcp, findVal_setVal_self]
      · simp only [Network.connectedNodeOf, findVal_updVal_ne hA, findVal_updVal_self, h1,
          Option.map_some, Option.some_bind]
        simp [SolverAsset.connect_node, findVal_setVal_self]
    case w2 =>
      by_cases hA : a1 = a2
      · subst hA
        rw [h1] at h2
        obtain rfl : x1 = x2 := by injection h2
        simp only [Network.connectedNodeOf, findVal_updVal_self, h1, Option.map_map,
          Option.bind_some, Option.map_some, Option.some_bind]
        simp [SolverAsset.connect_node, findVal_setVal_self]
      · simp only [Network.connectedNodeOf, findVal_updVal_self, findVal_updVal_ne hA, h2,
          Option.map_some, Option.some_bind]
        simp [SolverAsset.connect_node, findVal_setVal_self]
    case node =>
      simp only [findVal_updVal_self, findVal_setVal_self, Option.map_map, Option.map_some]
      simp [SolverNode.connect_asset, mkSolverNode]
  · -- asset 1's point already wired, asset 2's not
    intro nid hc2 hn1
    have hc1 : x1.is_connected cp1 = true := by
      simp [SolverAsset.is_connected, hasKey, SolverAsset.get_connected_node] at hn1 ⊢
      simp [hn1]
    refine ⟨Network.mk
      (updVal a2 (fun a => a.connect_node cp2 nid) net.assets)
      (updVal nid (fun n => n.connect_asset a2 cp2) net.nodes), ?eq, ?keys, ?w1, ?w2⟩
    case eq => simp [Network.connect_assets, h1, h2, hc1, hc2, hn1]
    case keys => simp [keys_updVal]
    case w1 =>
      by_cases hA : a2 = a1
      · subst hA
        rw [h1] at h2
        obtain rfl : x1 = x2 := by injection h2
        have hcp : cp2 ≠ cp1 := by
          intro h
          subst h
          rw [hc1] at hc2
          exact Bool.noConfusion hc2
        simp only [Network.connectedNodeOf, findVal_updVal_self, h1, Option.map_some,
          Option.some_bind]
        simpa [SolverAsset.connect_node, findVal_setVal_ne hcp] using hn1
      · simp only [Network.connectedNodeOf, findVal_updVal_ne hA, h1, Option.some_bind]
        exact hn1
    case w2 =>
      simp only [Network.connectedNodeOf, findVal_updVal_self, h2, Option.map_some,
        Option.some_bind]
      simp [SolverAsset.connect_node, findVal_setVal_self]
  · -- asset 2's point already wired, asset 1's not
    intro nid hc1 hn2
    have hc2 : x2.is_connected cp2 = true := by
      simp [SolverAsset.is_connected, hasKey, SolverAsset.get_connected_node] at hn2 ⊢
      simp [hn2]
    refine ⟨Network.mk
      (updVal a1 (fun a => a.connect_node cp1 nid) net.assets)
      (updVal nid (fun n => n.connect_asset a1 cp1) net.nodes), ?eq, ?keys, ?w1, ?w2⟩
    case eq => simp [Network.connect_assets, h1, h2, hc1, hc2, hn2]
    case keys => simp [keys_updVal]
    case w1 =>
      simp only [Network.connectedNodeOf, findVal_updVal_self, h1, Option.map_some,
        Option.some_bind]
      simp [SolverAsset.connect_node, findVal_setVal_self]
    case w2 =>
      by_cases hA : a1 = a2
      · subst hA
        rw [h1] at h2
        obtain rfl : x1 = x2 := by injection h2
        have hcp : cp1 ≠ cp2 := by
          intro h
          subst h
          rw [hc2] at hc1
          exact Bool.noConfusion hc1
        simp only [Network.connectedNodeOf, findVal_updVal_self, h1, Option.map_some,
          Option.some_bind]
        simpa [SolverAsset.connect_node, findVal_setVal_ne hcp] using hn2
      · simp only [Network.connectedNodeOf, findVal_updVal_ne hA, h2, Option.some_bind]
        exact hn2
  · -- both points already wired (to different nodes): rejected
    intro nid1 nid2 hn1 hn2 _
    have hc1 : x1.is_connected cp1 = true := by
      simp [SolverAsset.is_connected, hasKey, SolverAsset.get_connected_node] at hn1 ⊢
      simp [hn1]
    have hc2 : x2.is_connected cp2 = true := by
      simp [SolverAsset.is_connected, hasKey, SolverAsset.get_connected_node] at hn2 ⊢
      simp [hn2]
    simp [Network.connect_assets, h1, h2, hc1, hc2]

/-! Concrete two-asset networks used to exercise `connect_assets`. -/

def pipeOne : SolverAsset := mkSolverAsset .pipe 1

def prodTwo : SolverAsset := mkSolverAsset .production 2

def pipeOneWired : SolverAsset := { pipeOne with connectedNodes := [(0, 7)] }

def prodTwoWired : SolverAsset := { prodTwo with connectedNodes := [(0, 8)] }

def nodeSeven : SolverNode := { mkSolverNode 7 with connected_assets := [(1, 0)] }

def nodeEight : SolverNode := { mkSolverNode 8 with connected_assets := [(2, 0)] }

def netUnwired : Network := ⟨[(1, pipeOne), (2, prodTwo)], []⟩

def netOneWired : Network := ⟨[(1, pipeOneWired), (2, prodTwo)], [(7, nodeSeven)]⟩

def netBothWired : Network :=
  ⟨[(1, pipeOneWired), (2, prodTwoWired)], [(7, nodeSeven), (8, nodeEight)]⟩

/-- Witness for C1 at concrete networks: both points free (new node 9
created and returned), exactly one point wired (node 7 reused and returned),
and both points wired to the different nodes 7 and 8 (call rejected). -/
theorem connect_assets_cases_witness :
    (pipeOne.is_connected 0 = false ∧ prodTwo.is_connected 0 = false ∧
      hasKey 9 netUnwired.nodes = false ∧
      ∃ net', netUnwired.connect_assets 1 0 2 0 9 = .ok (9, net') ∧
        net'.nodes.length = netUnwired.nodes.length + 1 ∧
        net'.connectedNodeOf 1 0 = some 9 ∧
        net'.connectedNodeOf 2 0 = some 9 ∧
        findVal 9 net'.nodes =
          some { mkSolverNode 9 with connected_assets := [(1, 0), (2, 0)] }) ∧
    (prodTwo.is_connected 0 = false ∧ pipeOneWired.get_connected_node 0 = some 7 ∧
      ∃ net', netOneWired.connect_assets 1 0 2 0 9 = .ok (7, net') ∧
        net'.nodes.map Prod.fst = netOneWired.nodes.map Prod.fst ∧
        net'.connectedNodeOf 1 0 = some 7 ∧
        net'.connectedNodeOf 2 0 = some 7) ∧
    (pipeOneWired.get_connected_node 0 = some 7 ∧
      prodTwoWired.get_connected_node 0 = some 8 ∧ (7 : Nat) ≠ 8 ∧
      netBothWired.connect_assets 1 0 2 0 9 =
        .error (.notImplementedError
          "Something has gone wrong assets already connected to node")) := by
  refine ⟨⟨rfl, rfl, rfl, ?_⟩, ⟨rfl, rfl, ?_⟩, ⟨rfl, rfl, by decide, ?_⟩⟩
  · exact (connect_assets_cases netUnwired 1 0 2 0 9 pipeOne prodTwo rfl rfl).1 rfl rfl rfl
  · exact (connect_assets_cases netOneWired 1 0 2 0 9 pipeOneWired prodTwo rfl rfl).2.1 7
      rfl rfl
  · exact (connect_assets_cases netBothWired 1 0 2 0 9 pipeOneWired prodTwoWired
      rfl rfl).2.2.2 7 8 rfl rfl (by decide)

/-- Mutual consistency of the wiring: every node id stored at an asset's
connection point names a node of the network whose connected-asset list
contains the corresponding (asset, connection point) pair. -/
def Network.wiredConsistent (net : Network) : Prop :=
  ∀ aid a cp nid, findVal aid net.assets = some a →
    findVal cp a.connectedNodes = some nid →
    ∃ node, findVal nid net.nodes = some node ∧ (aid, cp) ∈ node.connected_assets

theorem mem_connect_asset {nd : SolverNode} {p : Nat × Nat} (a c : Nat)
    (h : p ∈ nd.connected_assets) : p ∈ (nd.connect_asset a c).connected_assets :=
  List.mem_append_left _ h

theorem mem_connect_asset_self (nd : SolverNode) (a c : Nat) :
    (a, c) ∈ (nd.connect_asset a c).connected_assets :=
  List.mem_append_right _ (List.mem_singleton.mpr rfl)

theorem nodes_append_preserves (nodes : Dict SolverNode) (n a c : Nat) :
    ∀ m node, findVal m nodes = some node →
      ∃ node', findVal m (updVal n (fun nd => nd.connect_asset a c) nodes) = some node' ∧
        ∀ p ∈ node.connected_assets, p ∈ node'.connected_assets := by
  intro m node hm
  by_cases hmn : n = m
  · subst hmn
    refine ⟨node.connect_asset a c, ?_, fun p hp => mem_connect_asset a c hp⟩
    rw [findVal_updVal_self, hm]
    rfl
  · exact ⟨node, by rwa [findVal_updVal_ne hmn], fun p hp => hp⟩

/-- C10: every successful `connect_assets` call preserves mutual wiring
consistency, wires both given connection points to the node whose id it
returns, and that node's connected-asset list contains both (asset,
connection point) pairs. -/
theorem connect_assets_preserves_consistency
    (net : Network) (a1 cp1 a2 cp2 fresh nid : Nat) (net' : Network)
    (hw : net.wiredConsistent)
    (hfresh : hasKey fresh net.nodes = false)
    (hok : net.connect_assets a1 cp1 a2 cp2 fresh = .ok (nid, net')) :
    net'.wiredConsistent ∧
    net'.connectedNodeOf a1 cp1 = some nid ∧
    net'.connectedNodeOf a2 cp2 = some nid ∧
    ∃ node, findVal nid net'.nodes = some node ∧
      (a1, cp1) ∈ node.connected_assets ∧ (a2, cp2) ∈ node.connected_assets := by
  have hfv : findVal fresh net.nodes = none := findVal_of_not_hasKey hfresh
  cases hx1 : findVal a1 net.assets with
  | none => simp [Network.connect_assets, hx1] at hok
  | some x1 =>
  cases hx2 : findVal a2 net.assets with
  | none => simp [Network.connect_assets, hx1, hx2] at hok
  | some x2 =>
  by_cases hc1 : x1.is_connected cp1 = true
  · by_cases hc2 : x2.is_connected cp2 = true
    · -- both already connected: the call errors, contradicting hok
      simp [Network.connect_assets, hx1, hx2, hc1, hc2] at hok
    · -- asset 1 wired, asset 2 not: reuse asset 1's node
      rw [Bool.not_eq_true] at hc2
      cases hg : x1.get_connected_node cp1 with
      | none =>
          rw [SolverAsset.get_connected_node] at hg
          rw [SolverAsset.is_connected, hasKey, hg] at hc1
          exact Bool.noConfusion hc1
      | some n =>
      simp [Network.connect_assets, hx1, hx2, hc1, hc2, hg, Prod.mk.injEq] at hok
      obtain ⟨rfl, rfl⟩ := hok
      rw [SolverAsset.get_connected_node] at hg
      obtain ⟨node0, hnode0, hmem0⟩ := hw a1 x1 cp1 n hx1 hg
      refine ⟨?_, ?_, ?_, ?_⟩
      · intro aid a cp nda ha hcp
        by_cases e2 : a2 = aid
        · subst e2
          simp only [findVal_updVal_self, hx2, Option.map_some', Option.some.injEq] at ha
          subst ha
          simp only [SolverAsset.connect_node] at hcp
          by_cases ecp : cp2 = cp
          · subst ecp
            rw [findVal_setVal_self] at hcp
            injection hcp with hcp
            subst hcp
            refine ⟨node0.connect_asset a2 cp2, ?_, mem_connect_asset_self node0 a2 cp2⟩
            simp only [findVal_updVal_self, hnode0, Option.map_some']
          · rw [findVal_setVal_ne ecp] at hcp
            obtain ⟨node1, hnode1, hmem1⟩ := hw a2 x2 cp nda hx2 hcp
            obtain ⟨node', h', hsub⟩ :=
              nodes_append_preserves net.nodes n a2 cp2 nda node1 hnode1
            exact ⟨node', h', hsub _ hmem1⟩
        · simp only [findVal_updVal_ne e2] at ha
          obtain ⟨node1, hnode1, hmem1⟩ := hw aid a cp nda ha hcp
          obtain ⟨node', h', hsub⟩ :=
            nodes_append_preserves net.nodes n a2 cp2 nda node1 hnode1
          exact ⟨node', h', hsub _ hmem1⟩
      · by_cases e : a2 = a1
        · subst e
          rw [hx1] at hx2
          injection hx2 with hx
          have hne : ¬cp2 = cp1 := by
            intro hh
            rw [hx] at hc1
            rw [hh] at hc2
            rw [hc1] at hc2
            exact Bool.noConfusion hc2
          simp only [Network.connectedNodeOf, findVal_updVal_self, hx1, Option.map_some',
            Option.some_bind, SolverAsset.connect_node]
          rw [findVal_setVal_ne hne]
          exact hg
        · simp only [Network.connectedNodeOf, findVal_updVal_ne e, hx1, Option.some_bind]
          exact hg
      · simp only [Network.connectedNodeOf, findVal_updVal_self, hx2, Option.map_some',
          Option.some_bind, SolverAsset.connect_node]
        exact findVal_setVal_self _ _ _
      · refine ⟨node0.connect_asset a2 cp2, ?_, mem_connect_asset a2 cp2 hmem0,
          mem_connect_asset_self node0 a2 cp2⟩
        simp only [findVal_updVal_self, hnode0, Option.map_some']
  · rw [Bool.not_eq_true] at hc1
    by_cases hc2 : x2.is_connected cp2 = true
    · -- asset 2 wired, asset 1 not: reuse asset 2's node
      cases hg : x2.get_connected_node cp2 with
      | none =>
          rw [SolverAsset.get_connected_node] at hg
          rw [SolverAsset.is_connected, hasKey, hg] at hc2
          exact Bool.noConfusion hc2
      | some n =>
      simp [Network.connect_assets, hx1, hx2, hc1, hc2, hg, Prod.mk.injEq] at hok
      obtain ⟨rfl, rfl⟩ := hok
      rw [SolverAsset.get_connected_node] at hg
      obtain ⟨node0, hnode0, hmem0⟩ := hw a2 x2 cp2 n hx2 hg
      refine ⟨?_, ?_, ?_, ?_⟩
      · intro aid a cp nda ha hcp
        by_cases e1 : a1 = aid
        · subst e1
          simp only [findVal_updVal_self, hx1, Option.map_some', Option.some.injEq] at ha
          subst ha
          simp only [SolverAsset.connect_node] at hcp
          by_cases ecp : cp1 = cp
          · subst ecp
            rw [findVal_setVal_self] at hcp
            injection hcp with hcp
            subst hcp
            refine ⟨node0.connect_asset a1 cp1, ?_, mem_connect_asset_self node0 a1 cp1⟩
            simp only [findVal_updVal_self, hnode0, Option.map_some']
          · rw [findVal_setVal_ne ecp] at hcp
            obtain ⟨node1, hnode1, hmem1⟩ := hw a1 x1 cp nda hx1 hcp
            obtain ⟨node', h', hsub⟩ :=
              nodes_append_preserves net.nodes n a1 cp1 nda node1 hnode1
            exact ⟨node', h', hsub _ hmem1⟩
        · simp only [findVal_updVal_ne e1] at ha
          obtain ⟨node1, hnode1, hmem1⟩ := hw aid a cp nda ha hcp
          obtain ⟨node', h', hsub⟩ :=
            nodes_append_preserves net.nodes n a1 cp1 nda node1 hnode1
          exact ⟨node', h', hsub _ hmem1⟩
      · simp only [Network.connectedNodeOf, findVal_updVal_self, hx1, Option.map_some',
          Option.some_bind, SolverAsset.connect_node]
        exact findVal_setVal_self _ _ _
      · by_cases e : a1 = a2
        · subst e
          rw [hx1] at hx2
          injection hx2 with hx
          have hne : ¬cp1 = cp2 := by
            intro hh
            rw [← hx] at hc2
            rw [← hh] at hc2
            rw [hc2] at hc1
            exact Bool.noConfusion hc1
          simp only [Network.connectedNodeOf, findVal_updVal_self, hx1, Option.map_some',
            Option.some_bind, SolverAsset.connect_node]
          rw [findVal_setVal_ne hne]
          rw [← hx] at hg
          exact hg
        · simp only [Network.connectedNodeOf, findVal_updVal_ne e, hx2, Option.some_bind]
          exact hg
      · refine ⟨node0.connect_asset a1 cp1, ?_, mem_connect_asset_self node0 a1 cp1,
          mem_connect_asset a1 cp1 hmem0⟩
        simp only [findVal_updVal_self, hnode0, Option.map_some']
    · -- neither point connected: fresh node created and wired to both
      rw [Bool.not_eq_true] at hc2
      simp [Network.connect_assets, hx1, hx2, hc1, hc2, Prod.mk.injEq] at hok
      obtain ⟨rfl, rfl⟩ := hok
      have hkeep : ∀ m node, findVal m net.nodes = some node →
          findVal m
            (updVal fresh (fun n => n.connect_asset a2 cp2)
              (updVal fresh (fun n => n.connect_asset a1 cp1)
                (setVal fresh (mkSolverNode fresh) net.nodes))) =
          some node := by
        intro m node hm
        have hne : ¬fresh = m := by
          intro h
          rw [← h, hfv] at hm
          exact Option.noConfusion hm
        rw [findVal_updVal_ne hne, findVal_updVal_ne hne, findVal_setVal_ne hne]
        exact hm
      have hnodeNew :
          findVal fresh
            (updVal fresh (fun n => n.connect_asset a2 cp2)
              (updVal fresh (fun n => n.connect_asset a1 cp1)
                (setVal fresh (mkSolverNode fresh) net.nodes))) =
          some (((mkSolverNode fresh).connect_asset a1 cp1).connect_asset a2 cp2) := by
        simp only [findVal_updVal_self, findVal_setVal_self, Option.map_some']
      refine ⟨?_, ?_, ?_, ?_⟩
      · intro aid a cp nda ha hcp
        by_cases e2 : a2 = aid
        · subst e2
          by_cases e1 : a1 = a2
          · subst e1
            rw [hx1] at hx2
            injection hx2 with hx
            subst hx
            simp only [findVal_updVal_self, hx1, Option.map_some', Option.map_map,
              Function.comp, Option.some.injEq] at ha
            subst ha
            simp only [SolverAsset.connect_node] at hcp
            by_cases ecp2 : cp2 = cp
            · subst ecp2
              rw [findVal_setVal_self] at hcp
              injection hcp with hcp
              subst hcp
              exact ⟨_, hnodeNew, mem_connect_asset_self _ a1 cp2⟩
            · rw [findVal_setVal_ne ecp2] at hcp
              by_cases ecp1 : cp1 = cp
              · subst ecp1
                rw [findVal_setVal_self] at hcp
                injection hcp with hcp
                subst hcp
                exact ⟨_, hnodeNew,
                  mem_connect_asset a1 cp2 (mem_connect_asset_self (mkSolverNode fresh) a1 cp1)⟩
              · rw [findVal_setVal_ne ecp1] at hcp
                obtain ⟨node1, hnode1, hmem1⟩ := hw a1 x1 cp nda hx1 hcp
                exact ⟨node1, hkeep nda node1 hnode1, hmem1⟩
          · simp only [findVal_updVal_self, findVal_updVal_ne e1, hx2, Option.map_some',
              Option.some.injEq] at ha
            subst ha
            simp only [SolverAsset.connect_node] at hcp
            by_cases ecp2 : cp2 = cp
            · subst ecp2
              rw [findVal_setVal_self] at hcp
              injection hcp with hcp
              subst hcp
              exact ⟨_, hnodeNew, mem_connect_asset_self _ a2 cp2⟩
            · rw [findVal_setVal_ne ecp2] at hcp
              obtain ⟨node1, hnode1, hmem1⟩ := hw a2 x2 cp nda hx2 hcp
              exact ⟨node1, hkeep nda node1 hnode1, hmem1⟩
        · by_cases e1 : a1 = aid
          · subst e1
            simp only [findVal_updVal_ne e2, findVal_updVal_self, hx1, Option.map_some',
              Option.some.injEq] at ha
            subst ha
            simp only [SolverAsset.connect_node] at hcp
            by_cases ecp1 : cp1 = cp
            · subst ecp1
              rw [findVal_setVal_self] at hcp
              injection hcp with hcp
              subst hcp
              exact ⟨_, hnodeNew,
                mem_connect_asset a2 cp2 (mem_connect_asset_self (mkSolverNode fresh) a1 cp1)⟩
            · rw [findVal_setVal_ne ecp1] at hcp
              obtain ⟨node1, hnode1, hmem1⟩ := hw a1 x1 cp nda hx1 hcp
              exact ⟨node1, hkeep nda node1 hnode1, hmem1⟩
          · simp only [findVal_updVal_ne e2, findVal_updVal_ne e1] at ha
            obtain ⟨node1, hnode1, hmem1⟩ := hw aid a cp nda ha hcp
            exact ⟨node1, hkeep nda node1 hnode1, hmem1⟩
      · by_cases e : a2 = a1
        · subst e
          rw [hx1] at hx2
          injection hx2 with hx
          subst hx
          simp only [Network.connectedNodeOf, findVal_updVal_self, hx1, Option.map_map,
            Option.map_some', Option.some_bind, Function.comp, SolverAsset.connect_node]
          by_cases hcp : cp2 = cp1
          · subst hcp
            exact findVal_setVal_self _ _ _
          · rw [findVal_setVal_ne hcp]
            exact findVal_setVal_self _ _ _
        · simp only [Network.connectedNodeOf, findVal_updVal_ne e, findVal_updVal_self, hx1,
            Option.map_some', Option.some_bind, SolverAsset.connect_node]
          exact findVal_setVal_self _ _ _
      · by_cases e : a1 = a2
        · subst e
          rw [hx1] at hx2
          injection hx2 with hx
          subst hx
          simp only [Network.connectedNodeOf, findVal_updVal_self, hx1, Option.map_map,
            Option.map_some', Option.some_bind, Function.comp, SolverAsset.connect_node]
          exact findVal_setVal_self _ _ _
        · simp only [Network.connectedNodeOf, findVal_updVal_self, findVal_updVal_ne e, hx2,
            Option.map_some', Option.some_bind, SolverAsset.connect_node]
          exact findVal_setVal_self _ _ _
      · exact ⟨_, hnodeNew,
          mem_connect_asset a2 cp2 (mem_connect_asset_self (mkSolverNode fresh) a1 cp1),
          mem_connect_asset_self _ a2 cp2⟩

/-- Witness for C10: connecting the two unwired assets of `netUnwired` with
fresh node id 9 yields a consistent network in which both points are wired
to node 9 and node 9 lists both pairs. -/
theorem connect_assets_preserves_consistency_witness :
    netUnwired.wiredConsistent ∧ hasKey 9 netUnwired.nodes = false ∧
    ∃ net', netUnwired.connect_assets 1 0 2 0 9 = .ok (9, net') ∧
      net'.wiredConsistent ∧
      net'.connectedNodeOf 1 0 = some 9 ∧
      net'.connectedNodeOf 2 0 = some 9 ∧
      ∃ node, findVal 9 net'.nodes = some node ∧
        (1, 0) ∈ node.connected_assets ∧ (2, 0) ∈ node.connected_assets := by
  have hw : netUnwired.wiredConsistent := by
    intro aid a cp nid h1 h2
    have hmem := findVal_mem h1
    simp only [netUnwired, List.mem_cons, List.not_mem_nil, or_false, Prod.mk.injEq] at hmem
    rcases hmem with ⟨_, rfl⟩ | ⟨_, rfl⟩
    · simp [pipeOne, mkSolverAsset, findVal] at h2
    · simp [prodTwo, mkSolverAsset, findVal] at h2
  have hok : netUnwired.connect_assets 1 0 2 0 9 =
      .ok (9, Network.mk
        [(1, { pipeOne with connectedNodes := [(0, 9)] }),
         (2, { prodTwo with connectedNodes := [(0, 9)] })]
        [(9, { mkSolverNode 9 with connected_assets := [(1, 0), (2, 0)] })]) := by
    rfl
  exact ⟨hw, rfl, _, hok,
    connect_assets_preserves_consistency netUnwired 1 0 2 0 9 9 _ hw rfl hok⟩

/-! ## Boundary equation contract (`Boundary.py`)

`EquationObject` (from `matrix/equation_object.py`, absent from `src/`) is a
row of the global linear system: indices into the unknown vector, matching
coefficients, and a right-hand side (spec §3 `EquationRow`). -/

structure EquationObject where
  indices : List Nat
  coefficients : List ℚ
  rhs : ℚ
deriving DecidableEq, Repr

/-- Modelled from the spec: `core_enum.py` is not under `src/`; spec §3
orders each connection point's unknowns as discharge, pressure, internal
energy. -/
def IndexEnum.discharge : Nat := 0

def IndexEnum.pressure : Nat := 1

def IndexEnum.internal_energy : Nat := 2

def NUMBER_CORE_QUANTITIES : Nat := 3

/-- State of a `BaseBoundary` (`Boundary.py`): one connection point, three
unknowns, and a configured boundary pressure (`initial_pressure`, 10000.0
at construction). -/
structure BaseBoundary where
  name : Nat
  number_of_unknowns : Nat
  number_of_connection_point : Nat
  matrix_index : Nat
  initial_pressure : ℚ
deriving DecidableEq, Repr

/-- `BaseBoundary.add_pressure_equation`: the prescribed-pressure row
`pressure[point] = initial_pressure`. -/
def BaseBoundary.add_pressure_equation (b : BaseBoundary) : EquationObject :=
  { indices := [b.matrix_index + IndexEnum.pressure]
    coefficients := [1]
    rhs := b.initial_pressure }

/-- Modelled from the spec: `Baseasset.py` is not under `src/`.  The generic
thermal-balance row contributed at connection point `i`; only its presence
matters for the properties proved here, so it is represented as a row on
that point's internal-energy unknown. -/
def BaseBoundary.add_thermal_equations (b : BaseBoundary) (i : Nat) : EquationObject :=
  { indices := [b.matrix_index + i * NUMBER_CORE_QUANTITIES + IndexEnum.internal_energy]
    coefficients := [1]
    rhs := 0 }

/-- Modelled from the spec: `Baseasset.py` is not under `src/`.  The generic
pressure-to-node linking row contributed at connection point `i`,
represented as a row on that point's pressure unknown. -/
def BaseBoundary.add_press_to_node_equation (b : BaseBoundary) (i : Nat) : EquationObject :=
  { indices := [b.matrix_index + i * NUMBER_CORE_QUANTITIES + IndexEnum.pressure]
    coefficients := [1, -1]
    rhs := 0 }

/-- `BaseBoundary.get_equations` (`Boundary.py` lines 49–64). -/
def BaseBoundary.get_equations (b : BaseBoundary) : List EquationObject :=
  [b.add_pressure_equation, b.add_thermal_equations 0, b.add_press_to_node_equation 0]

/-- C8: `get_equations` of a boundary returns exactly three equation
objects, among them the prescribed-pressure equation, whose index list is
exactly the single position `matrix_index + pressure offset`, whose
coefficient list is exactly `[1.0]`, and whose right-hand side is the
boundary's configured pressure, i.e. the row states
`pressure[point] = configured_value`. -/
theorem boundary_get_equations_spec (b : BaseBoundary) :
    b.get_equations.length = 3 ∧
    { indices := [b.matrix_index + IndexEnum.pressure]
      coefficients := [(1 : ℚ)]
      rhs := b.initial_pressure : EquationObject } ∈ b.get_equations := by
  refine ⟨rfl, ?_⟩
  have : b.add_pressure_equation ∈ b.get_equations := List.mem_cons_self _ _
  exact this

/-! ## The timestep loop (`networksimulation.py`) -/

structure SimulationConfiguration where
  start : Int
  stop : Int
  timestep : Int
deriving DecidableEq, Repr

/-- `range(start, stop, step)` over integers with a positive step, as used
by `NetworkSimulation.run`. -/
def pyRangeLen (start stop step : Int) : Nat :=
  if 0 < step ∧ start < stop then ((stop - start + step - 1) / step).toNat else 0

def pyRange (start stop step : Int) : List Int :=
  (List.range (pyRangeLen start stop step)).map (fun i => start + step * i)

/-- The inner `while not_converged` loop of `NetworkSimulation.run` (lines
44–48): the body unconditionally sets `not_converged` to `False` before any
convergence check (the code performs none and has no iteration cap) and
calls `network.run_time_step` once.  `fuel` bounds the recursion; the
result counts how many times the body ran. -/
def whileNotConverged : Nat → Bool → Nat → Option Nat
  | 0, not_converged, count => if not_converged then none else some count
  | fuel + 1, not_converged, count =>
      if not_converged then whileNotConverged fuel false (count + 1) else some count

/-- The outer time loop of `NetworkSimulation.run`, executed timestep by
timestep; each step starts the inner while loop from `not_converged = True`
and records how many times `network.run_time_step` was invoked there. -/
def traverseSteps (fuel : Nat) : List Int → Option (List (Int × Nat))
  | [] => some []
  | t :: rest =>
      match whileNotConverged fuel true 0, traverseSteps fuel rest with
      | some c, some l => some ((t, c) :: l)
      | _, _ => none

/-- `NetworkSimulation.run`: iterate over `range(start, stop, timestep)`. -/
def runIterationTrace (config : SimulationConfiguration) (fuel : Nat) :
    Option (List (Int × Nat)) :=
  traverseSteps fuel (pyRange config.start config.stop config.timestep)

theorem whileNotConverged_false (fuel count : Nat) :
    whileNotConverged fuel false count = some count := by
  cases fuel <;> rfl

/-- C3 (evidence of the code bug): for every configuration, the embedded
`NetworkSimulation.run` executes the solve body exactly once per timestep —
`not_converged` is set to `False` unconditionally, so there is no
convergence criterion, no iteration cap, and no convergence-failure report
of any kind; the loop never repeats. -/
theorem run_single_iteration_per_timestep (config : SimulationConfiguration) (fuel : Nat) :
    runIterationTrace config (fuel + 1) =
      some ((pyRange config.start config.stop config.timestep).map (fun t => (t, 1))) := by
  have hw : whileNotConverged (fuel + 1) true 0 = some 1 := by
    show (if true = true then whileNotConverged fuel false 1 else some 0) = some 1
    rw [if_pos rfl]
    exact whileNotConverged_false fuel 1
  unfold runIterationTrace
  induction pyRange config.start config.stop config.timestep with
  | nil => rfl
  | cons hd tl ih =>
      rw [traverseSteps, hw, ih]
      rfl

/-! ## Production cluster setpoints (`production_cluster.py`) -/

/-- Modelled from the spec: `utils.py` is not under `src/`.  The heat demand
Q (W), supply temperature and return temperature determine the controlled
mass flow through Q = ṁ·cp·(Ts − Tr) (spec glossary: discharge is a mass
flow rate; the internal-energy/temperature conversion is the fluid's), with
cp the positive specific heat capacity of the working fluid (water). -/
def waterHeatCapacity : ℚ := 4186

def heat_demand_and_temperature_to_mass_flow (thermal_demand ts tr : ℚ) : ℚ :=
  thermal_demand / (waterHeatCapacity * (ts - tr))

/-- The `ProductionCluster` state touched by `_set_heat_demand`. -/
structure ProductionCluster where
  temperature_supply : ℚ
  temperature_return : ℚ
  controlled_mass_flow : ℚ
  pump_index : Nat
  valve_index : Nat
deriving DecidableEq, Repr

/-- The two pandapipes component table columns written by
`_set_heat_demand`: `circ_pump_mass["mdot_flow_kg_per_s"]` and
`flow_control["controlled_mdot_kg_per_s"]`. -/
structure PandapipesTables where
  circ_pump_mdot : List ℚ
  flow_control_mdot : List ℚ
deriving DecidableEq, Repr

/-- `ProductionCluster._set_heat_demand` (lines 193–220): recompute the
controlled mass flow from the setpoint, raise `ValueError` when it is
negative (the recomputed `_controlled_mass_flow` field is kept, as in the
Python object, but the tables stay untouched), otherwise write it into both
the circulation-pump and control-valve table entries. -/
def ProductionCluster.set_heat_demand (pc : ProductionCluster)
    (tables : PandapipesTables) (heat_demand : ℚ) :
    Option String × ProductionCluster × PandapipesTables :=
  let m := heat_demand_and_temperature_to_mass_flow heat_demand
    pc.temperature_supply pc.temperature_return
  let pc' := { pc with controlled_mass_flow := m }
  if m < 0 then
    (some "The mass flow rate of the asset is negative.", pc', tables)
  else
    (none, pc',
      { circ_pump_mdot := tables.circ_pump_mdot.set pc.pump_index m
        flow_control_mdot := tables.flow_control_mdot.set pc.valve_index m })

theorem getElem?_set_self {α : Type} (l : List α) (i : Nat) (a : α) (h : i < l.length) :
    (l.set i a)[i]? = some a := by
  induction l generalizing i with
  | nil => simp at h
  | cons hd tl ih =>
      cases i with
      | zero => simp
      | succ j =>
          simp only [List.set_cons_succ, List.getElem?_cons_succ]
          exact ih j (by simpa using h)

/-- C9: setting the heat demand of a production cluster raises a
`ValueError` exactly when the derived controlled mass flow is negative, in
which case the pump and valve mass-flow table entries are untouched; when
it is non-negative no error is raised and both the circulation pump's and
the control valve's mass-flow entries are set to the derived value. -/
theorem set_heat_demand_spec (pc : ProductionCluster) (tables : PandapipesTables)
    (q : ℚ) :
    (heat_demand_and_temperature_to_mass_flow q pc.temperature_supply
        pc.temperature_return < 0 →
      (pc.set_heat_demand tables q).1.isSome = true ∧
      (pc.set_heat_demand tables q).2.2 = tables) ∧
    (0 ≤ heat_demand_and_temperature_to_mass_flow q pc.temperature_supply
        pc.temperature_return →
      (pc.set_heat_demand tables q).1 = none ∧
      (pc.pump_index < tables.circ_pump_mdot.length →
        (pc.set_heat_demand tables q).2.2.circ_pump_mdot[pc.pump_index]? =
          some (heat_demand_and_temperature_to_mass_flow q pc.temperature_supply
            pc.temperature_return)) ∧
      (pc.valve_index < tables.flow_control_mdot.length →
        (pc.set_heat_demand tables q).2.2.flow_control_mdot[pc.valve_index]? =
          some (heat_demand_and_temperature_to_mass_flow q pc.temperature_supply
            pc.temperature_return))) := by
  constructor
  · intro hm
    simp [ProductionCluster.set_heat_demand, hm]
  · intro hm
    have hm' : ¬heat_demand_and_temperature_to_mass_flow q pc.temperature_supply
        pc.temperature_return < 0 := not_lt.mpr hm
    refine ⟨by simp [ProductionCluster.set_heat_demand, hm'], ?_, ?_⟩
    · intro hlen
      simp only [ProductionCluster.set_heat_demand, hm', if_false, if_neg hm']
      exact getElem?_set_self _ _ _ hlen
    · intro hlen
      simp only [ProductionCluster.set_heat_demand, hm', if_false, if_neg hm']
      exact getElem?_set_self _ _ _ hlen

/-- Witness for C9: with supply 350 K, return 320 K, a heat demand of
−125580 W derives mass flow −1/1000 kg/s (rejected, tables untouched) and
+125580 W derives +1/1000 kg/s (written to both table entries). -/
theorem set_heat_demand_spec_witness :
    (heat_demand_and_temperature_to_mass_flow (-125580) 350 320 < 0 ∧
      ((ProductionCluster.mk 350 320 0 0 1).set_heat_demand
          (PandapipesTables.mk [5, 5] [5, 5]) (-125580)).1.isSome = true ∧
      ((ProductionCluster.mk 350 320 0 0 1).set_heat_demand
          (PandapipesTables.mk [5, 5] [5, 5]) (-125580)).2.2 =
        PandapipesTables.mk [5, 5] [5, 5]) ∧
    (0 ≤ heat_demand_and_temperature_to_mass_flow 125580 350 320 ∧
      ((ProductionCluster.mk 350 320 0 0 1).set_heat_demand
          (PandapipesTables.mk [5, 5] [5, 5]) 125580).1 = none ∧
      ((ProductionCluster.mk 350 320 0 0 1).set_heat_demand
          (PandapipesTables.mk [5, 5] [5, 5]) 125580).2.2.circ_pump_mdot[0]? =
        some (heat_demand_and_temperature_to_mass_flow 125580 350 320) ∧
      ((ProductionCluster.mk 350 320 0 0 1).set_heat_demand
          (PandapipesTables.mk [5, 5] [5, 5]) 125580).2.2.flow_control_mdot[1]? =
        some (heat_demand_and_temperature_to_mass_flow 125580 350 320)) := by
  have hneg : heat_demand_and_temperature_to_mass_flow (-125580) 350 320 < 0 := by
    norm_num [heat_demand_and_temperature_to_mass_flow, waterHeatCapacity]
  have hpos : 0 ≤ heat_demand_and_temperature_to_mass_flow 125580 350 320 := by
    norm_num [heat_demand_and_temperature_to_mass_flow, waterHeatCapacity]
  have h1 := (set_heat_demand_spec (ProductionCluster.mk 350 320 0 0 1)
    (PandapipesTables.mk [5, 5] [5, 5]) (-125580)).1 hneg
  have h2 := (set_heat_demand_spec (ProductionCluster.mk 350 320 0 0 1)
    (PandapipesTables.mk [5, 5] [5, 5]) 125580).2 hpos
  exact ⟨⟨hneg, h1.1, h1.2⟩, ⟨hpos, h2.1, h2.2.1 (by decide), h2.2.2 (by decide)⟩⟩

/-! ## Pipe friction factor (`SolverPipe.calc_lambda_loss`)

`solver_pipe.py` is not under `src/`; the friction model below is modelled
from spec §4.3 and pinned by `test_solver_pipe.py`.  Python floats are
stood in for by fixed-point arithmetic over `ℤ` with 12 fractional decimal
digits (scale `fpS = 10¹²`), with `Int.ediv` (which is floor division for
the positive divisors used here) as the rounding step; the C math library's
`log10` and `sqrt` are stood in for by an artanh power series and Newton
iteration at the same precision. -/

def fpS : Int := 10 ^ 12

def fpMul (a b : Int) : Int := Int.ediv (a * b) fpS

def fpDiv (a b : Int) : Int := Int.ediv (a * fpS) b

def fpConst (n d : Int) : Int := Int.ediv (n * fpS) d

/-- Partial sums of `artanh t = Σ t^(2k+1)/(2k+1)`, in fixed point. -/
def atanhGo (t2 : Int) : Nat → Nat → Int → Int → Int
  | 0, _, _, acc => acc
  | n + 1, k, pw, acc =>
      let pw' := fpMul pw t2
      atanhGo t2 n (k + 1) pw' (acc + Int.ediv pw' ((2 * k + 1 : Nat) : Int))

def atanhSeries (t : Int) : Int := atanhGo (fpMul t t) 39 1 t t

/-- `ln 2 = 2 artanh (1/3)`. -/
def lnTwoZ : Int := 2 * atanhSeries (fpConst 1 3)

/-- `ln 5 = 2 artanh (2/3)`. -/
def lnFiveZ : Int := 2 * atanhSeries (fpConst 2 3)

def lnTenZ : Int := lnTwoZ + lnFiveZ

/-- Scale `z` into `[1, 10)` by repeated multiplication by 10, counting the
decades. -/
def scaleUpZ : Nat → Int → Int × Nat
  | 0, z => (z, 0)
  | f + 1, z =>
      if z < fpS then
        let p := scaleUpZ f (z * 10)
        (p.1, p.2 + 1)
      else (z, 0)

def log10Z (z : Int) : Int :=
  let c := (scaleUpZ 8 z).1
  let e := (scaleUpZ 8 z).2
  let t := fpDiv (c - fpS) (c + fpS)
  let lnz := 2 * atanhSeries t
  fpDiv lnz lnTenZ - (e : Int) * fpS

def sqrtGoZ (x : Int) : Nat → Int → Int
  | 0, s => s
  | n + 1, s => sqrtGoZ x n (Int.ediv (s + fpDiv x s) 2)

def sqrtZ (x : Int) : Int := sqrtGoZ x 10 fpS

/-- One Colebrook–White fixed-point update
`λ ← (−2·log10(rr/3.7 + 2.51/(Re·√λ)))⁻²`. -/
def colebrookStepZ (reZ rr lam : Int) : Int :=
  let arg := fpDiv rr (fpConst 37 10) + fpDiv (fpConst 251 100) (fpMul reZ (sqrtZ lam))
  let l := log10Z arg
  fpDiv fpS (4 * fpMul l l)

def colebrookGoZ (reZ rr : Int) : Nat → Int → Int
  | 0, lam => lam
  | n + 1, lam => colebrookGoZ reZ rr n (colebrookStepZ reZ rr lam)

/-- Modelled from the spec: the turbulent (Colebrook-type) friction
correlation of `solver_pipe.py` (absent from `src/`), as a ten-step
fixed-point iteration from the initial guess λ = 0.02 (the iterates are
stationary at the printed precision well before ten steps). -/
def colebrookZ (reZ rr : Int) : Int := colebrookGoZ reZ rr 10 (fpConst 2 100)

def fpToRat (z : Int) : ℚ := (z : ℚ) / ((fpS : Int) : ℚ)

def fpOfRat (x : ℚ) : Int := ⌊x * ((fpS : Int) : ℚ)⌋

/-- Default solver-pipe roughness, metres (modelled: files absent). -/
def solverPipeRoughness : ℚ := 1 / 1000

/-- Default solver-pipe diameter, metres (modelled: files absent).  The
relative roughness `roughness/diameter = 0.005` is the unique value
consistent with both of the spec's pinned transitional and turbulent
friction values. -/
def solverPipeDiameter : ℚ := 1 / 5

/-- Modelled from the spec: `SolverPipe.calc_lambda_loss` (spec §4.3),
piecewise in the Reynolds number: saturated laminar `0.64` for `Re ≤ 100`,
laminar `64/Re` for `Re < 2000`, a transitional interpolation from the
laminar value at `Re = 2000` toward the turbulent Colebrook correlation for
`2000 ≤ Re < 4000`, and the Colebrook correlation for `Re ≥ 4000`. -/
def calc_lambda_loss (re : ℚ) : ℚ :=
  if re ≤ 100 then 64 / 100
  else if re < 2000 then 64 / re
  else if re < 4000 then
    64 / 2000 + (re - 2000) / 2000 *
      (fpToRat (colebrookZ (fpOfRat re)
        (fpOfRat (solverPipeRoughness / solverPipeDiameter))) - 64 / 2000)
  else
    fpToRat (colebrookZ (fpOfRat re)
      (fpOfRat (solverPipeRoughness / solverPipeDiameter)))

theorem colebrookGoZ_add (reZ rr : Int) (m n : Nat) (lam : Int) :
    colebrookGoZ reZ rr (m + n) lam =
      colebrookGoZ reZ rr n (colebrookGoZ reZ rr m lam) := by
  induction m generalizing lam with
  | zero => rw [Nat.zero_add]; rfl
  | succ m ih =>
      rw [Nat.succ_add]
      show colebrookGoZ reZ rr (m + n) (colebrookStepZ reZ rr lam) = _
      exact ih (colebrookStepZ reZ rr lam)

set_option maxRecDepth 100000 in
/-- C2: the friction-factor computation is piecewise in the Reynolds
number: `Re = 50 ↦ λ = 0.64` exactly, `Re = 1990 ↦ λ = 64/1990` exactly,
`Re = 3500 ↦ λ ≈ 0.0426` to four decimals, and
`Re = 37743.12811445107 ↦ λ ≈ 0.0327` to four decimals. -/
theorem calc_lambda_loss_regimes :
    calc_lambda_loss 50 = 64 / 100 ∧
    calc_lambda_loss 1990 = 64 / 1990 ∧
    |calc_lambda_loss 3500 - 426 / 10000| < 5 / 100000 ∧
    |calc_lambda_loss (3774312811445107 / 100000000000) - 327 / 10000| < 5 / 100000 := by
  have h35 : fpOfRat 3500 = 3500000000000000 := by
    have h : (3500 : ℚ) * ((fpS : Int) : ℚ) = ((3500000000000000 : ℤ) : ℚ) := by
      norm_num [fpS]
    rw [fpOfRat, h, Int.floor_intCast]
  have h37 : fpOfRat (3774312811445107 / 100000000000) = 37743128114451070 := by
    have h : (3774312811445107 / 100000000000 : ℚ) * ((fpS : Int) : ℚ) =
        ((37743128114451070 : ℤ) : ℚ) := by norm_num [fpS]
    rw [fpOfRat, h, Int.floor_intCast]
  have hrr : fpOfRat (solverPipeRoughness / solverPipeDiameter) = 5000000000 := by
    have h : (solverPipeRoughness / solverPipeDiameter) * ((fpS : Int) : ℚ) =
        ((5000000000 : ℤ) : ℚ) := by
      norm_num [solverPipeRoughness, solverPipeDiameter, fpS]
    rw [fpOfRat, h, Int.floor_intCast]
  have c35a : colebrookGoZ 3500000000000000 5000000000 5 (fpConst 2 100) = 46102980767 := by
    decide
  have c35b : colebrookGoZ 3500000000000000 5000000000 5 46102980767 = 46101270514 := by
    decide
  have c35 : colebrookZ 3500000000000000 5000000000 = 46101270514 := by
    show colebrookGoZ 3500000000000000 5000000000 10 (fpConst 2 100) = 46101270514
    rw [show (10 : Nat) = 5 + 5 from rfl, colebrookGoZ_add, c35a, c35b]
  have c37a : colebrookGoZ 37743128114451070 5000000000 5 (fpConst 2 100) = 32707090934 := by
    decide
  have c37b : colebrookGoZ 37743128114451070 5000000000 5 32707090934 = 32707090175 := by
    decide
  have c37 : colebrookZ 37743128114451070 5000000000 = 32707090175 := by
    show colebrookGoZ 37743128114451070 5000000000 10 (fpConst 2 100) = 32707090175
    rw [show (10 : Nat) = 5 + 5 from rfl, colebrookGoZ_add, c37a, c37b]
  refine ⟨?_, ?_, ?_, ?_⟩
  · rw [calc_lambda_loss, if_pos (by norm_num)]
  · rw [calc_lambda_loss, if_neg (by norm_num), if_pos (by norm_num)]
  · rw [calc_lambda_loss, if_neg (by norm_num), if_neg (by norm_num), if_pos (by norm_num),
      h35, hrr, c35, fpToRat]
    rw [abs_sub_lt_iff]
    constructor <;> norm_num [fpS]
  · rw [calc_lambda_loss, if_neg (by norm_num), if_neg (by norm_num), if_neg (by norm_num),
      h37, hrr, c37, fpToRat]
    rw [abs_sub_lt_iff]
    constructor <;> norm_num [fpS]

/-! ## Pipe heat transport (`SolverPipe.update_heat_supplied`)

Modelled from the spec (§4.3; `solver_pipe.py` is absent from `src/`): the
pipe length is discretized into `_grid_size` cells; internal energy is
advected along the flow direction (upwind: positive discharge enters at the
"from" end, grid index 0, and exits at the "to" end, the last index;
negative discharge inverts the roles), while each cell loses heat to the
surroundings at rate `alpha_value · cell surface · (T_cell − T_ext)`.  The
internal-energy/temperature conversion of `FluidProperties` is modelled as
linear, `u = cp · T`.  Each cell update is the implicit (unconditionally
stable) balance `ṁ(u_next − u_prev) = −α·A·(u_next/cp − T_ext)`. -/

def piApproxQ : ℚ := 3141592653589793 / 10 ^ 15

structure PipeParams where
  length : ℚ
  diameter : ℚ
  alpha_value : ℚ
  external_temperature : ℚ
  grid_size : Nat
deriving DecidableEq, Repr

/-- One upwind cell update: the exit internal energy of a cell with inlet
internal energy `u`, mass flow `m > 0`, and heat-loss coefficient
`c = α · (cell surface area)`. -/
def pipeCellStep (m c text u : ℚ) : ℚ :=
  (m * u + c * text) / (m + c / waterHeatCapacity)

/-- March along the flow direction, inlet first: the internal-energy grid
for positive flow, with the inlet value at index 0. -/
def marchF (m c text : ℚ) : Nat → ℚ → List ℚ
  | 0, u => [u]
  | n + 1, u => u :: marchF m c text n (pipeCellStep m c text u)

/-- March against the index direction: the internal-energy grid for
negative flow, with the inlet value at the last index and the exit value at
index 0. -/
def marchB (m c text : ℚ) : Nat → ℚ → List ℚ
  | 0, u => [u]
  | n + 1, u => marchB m c text n (pipeCellStep m c text u) ++ [u]

structure PipeHeatResult where
  heat_supplied : ℚ
  internal_energy_grid : List ℚ
deriving DecidableEq, Repr

/-- Modelled from the spec: `SolverPipe.update_heat_supplied`.  For
non-negative discharge the energy input `uFrom` enters at grid index 0 and
exits at the last index; for negative discharge the input `uTo` enters at
the last index and exits at index 0.  `heat_supplied = ṁ·(u_exit − u_in)`
(negative when the pipe is a net heat sink). -/
def update_heat_supplied (p : PipeParams) (discharge uFrom uTo : ℚ) : PipeHeatResult :=
  let c := p.alpha_value * piApproxQ * p.diameter * (p.length / (p.grid_size : ℚ))
  if 0 ≤ discharge then
    let grid := marchF discharge c p.external_temperature p.grid_size uFrom
    { heat_supplied := discharge * (grid.getLast?.getD uFrom - uFrom)
      internal_energy_grid := grid }
  else
    let grid := marchB (-discharge) c p.external_temperature p.grid_size uTo
    { heat_supplied := (-discharge) * (grid.head?.getD uTo - uTo)
      internal_energy_grid := grid }

theorem marchB_eq_reverse (m c text : ℚ) (n : Nat) (u : ℚ) :
    marchB m c text n u = (marchF m c text n u).reverse := by
  induction n generalizing u with
  | zero => rfl
  | succ n ih => simp [marchB, marchF, ih]

theorem marchF_ne_nil (m c text : ℚ) (n : Nat) (u : ℚ) :
    marchF m c text n u ≠ [] := by
  cases n <;> simp [marchF]

/-- C4: the upwind scheme is direction-symmetric — reversing the sign of a
(positive) discharge while moving the internal-energy input to the opposite
end yields the identical `heat_supplied` value, and the internal-energy
grid is exactly the reverse of the forward grid, so the exit internal
energy appears at the correspondingly opposite end with the same value. -/
theorem update_heat_supplied_symmetric (p : PipeParams) (d uIn uOther uOther' : ℚ)
    (hd : 0 < d) :
    (update_heat_supplied p (-d) uOther' uIn).heat_supplied =
      (update_heat_supplied p d uIn uOther).heat_supplied ∧
    (update_heat_supplied p (-d) uOther' uIn).internal_energy_grid =
      (update_heat_supplied p d uIn uOther).internal_energy_grid.reverse ∧
    (update_heat_supplied p (-d) uOther' uIn).internal_energy_grid.head?.getD uIn =
      (update_heat_supplied p d uIn uOther).internal_energy_grid.getLast?.getD uIn := by
  have hneg : ¬(0 ≤ -d) := by simp [hd]
  have hpos : 0 ≤ d := le_of_lt hd
  unfold update_heat_supplied
  rw [if_neg hneg, if_pos hpos]
  simp only [neg_neg]
  refine ⟨?_, ?_, ?_⟩
  · rw [marchB_eq_reverse, List.head?_reverse]
  · rw [marchB_eq_reverse]
  · rw [marchB_eq_reverse, List.head?_reverse]

/-- Witness for C4 at a concrete pipe (length 3·10⁵ m, diameter 1 m,
α = 0.1 W/m²K, external temperature 293.15 K, ten grid cells) and
discharge 2.906 kg/s. -/
theorem update_heat_supplied_symmetric_witness :
    0 < (2906 / 1000 : ℚ) ∧
    ((update_heat_supplied (PipeParams.mk 300000 1 (1 / 10) (29315 / 100) 10)
        (-(2906 / 1000)) 7 1000).heat_supplied =
      (update_heat_supplied (PipeParams.mk 300000 1 (1 / 10) (29315 / 100) 10)
        (2906 / 1000) 1000 5).heat_supplied ∧
     (update_heat_supplied (PipeParams.mk 300000 1 (1 / 10) (29315 / 100) 10)
        (-(2906 / 1000)) 7 1000).internal_energy_grid =
      (update_heat_supplied (PipeParams.mk 300000 1 (1 / 10) (29315 / 100) 10)
        (2906 / 1000) 1000 5).internal_energy_grid.reverse ∧
     (update_heat_supplied (PipeParams.mk 300000 1 (1 / 10) (29315 / 100) 10)
        (-(2906 / 1000)) 7 1000).internal_energy_grid.head?.getD 1000 =
      (update_heat_supplied (PipeParams.mk 300000 1 (1 / 10) (29315 / 100) 10)
        (2906 / 1000) 1000 5).internal_energy_grid.getLast?.getD 1000) := by
  have hd : 0 < (2906 / 1000 : ℚ) := by norm_num
  exact ⟨hd, update_heat_supplied_symmetric
    (PipeParams.mk 300000 1 (1 / 10) (29315 / 100) 10) (2906 / 1000) 1000 5 7 hd⟩

end SimCore
